import Mathlib

/-!
Verification of the WebReaper crawler core against its specification.

The development shallowly embeds the relevant C functions of
`src/webreaper.c`, `src/connection.c`, `src/http/http.c` and
`src/http/http_conn.c` as executable Lean functions over `List Char`
(C strings without embedded NUL bytes) and proves or refutes the
specified properties about them.
-/

set_option maxRecDepth 8000

namespace WebReaper

/-- Coerce a Lean string literal to the `List Char` representation used
throughout the embedding. -/
def cs (s : String) : List Char := s.data

/-- Embedding of `strstr`: locate the first occurrence of `needle` in `hay`.
Returns `some (pre, suf)` where `hay = pre ++ suf` and `needle` is a prefix
of `suf`; returns `none` when `needle` does not occur. -/
def strstrSplit (needle : List Char) : List Char → Option (List Char × List Char)
  | [] => if needle.isEmpty then some ([], []) else none
  | c :: rest =>
    if needle.isPrefixOf (c :: rest) then some ([], c :: rest)
    else
      match strstrSplit needle rest with
      | some (pre, suf) => some (c :: pre, suf)
      | none => none

/-- `strstr(hay, needle) != NULL` as a boolean. -/
def strstrB (needle hay : List Char) : Bool := (strstrSplit needle hay).isSome

theorem strstrSplit_append (needle : List Char) (suf : List Char)
    (hsuf : needle.isPrefixOf suf = true) :
    ∀ pre : List Char, (strstrSplit needle (pre ++ suf)).isSome := by
  intro pre
  induction pre with
  | nil =>
    cases suf with
    | nil =>
      cases needle with
      | nil => simp [strstrSplit]
      | cons c cs => simp [List.isPrefixOf] at hsuf
    | cons c rest => simp [strstrSplit, hsuf]
  | cons c pre ih =>
    simp only [List.cons_append, strstrSplit]
    split
    · simp
    · revert ih
      cases h : strstrSplit needle (pre ++ suf) <;> simp

theorem strstrB_of_infix (needle pre suf : List Char)
    (hsuf : needle.isPrefixOf suf = true) :
    strstrB needle (pre ++ suf) = true := by
  simpa [strstrB] using strstrSplit_append needle suf hsuf pre

/-! ## The `reap` status-policy dispatch (src/webreaper.c:1222-1269)

`reap` switches on the status code returned by `do_request`.  We embed the
switch as a total function into the action taken by each arm. -/

/-- Action carried out by one arm of the status switch in `reap`. -/
inductive ReapAction where
  /-- `break` out of the switch: the page goes on to link extraction and
  `archive_page`. -/
  | archive
  /-- Clear the buffers, `http_reconnect`, and `goto next` (skip the URL). -/
  | reconnectSkip
  /-- `goto next` directly (skip the URL). -/
  | skip
  /-- Clear the read buffer, restore `host` from `primary_host` when empty,
  `http_reconnect`, `goto next`. -/
  | timeoutReconnect
  /-- `default:` arm — report "Unknown HTTP status code" and `goto fail`,
  aborting the whole crawl. -/
  | fatal
deriving DecidableEq

def HTTP_OK : Nat := 200
def HTTP_MOVED_PERMANENTLY : Nat := 301
def HTTP_FOUND : Nat := 302
def HTTP_SEE_OTHER : Nat := 303
def HTTP_BAD_REQUEST : Nat := 400
def HTTP_FORBIDDEN : Nat := 403
def HTTP_NOT_FOUND : Nat := 404
def HTTP_METHOD_NOT_ALLOWED : Nat := 405
def HTTP_GONE : Nat := 410
def HTTP_INTERNAL_ERROR : Nat := 500
def HTTP_BAD_GATEWAY : Nat := 502
def HTTP_SERVICE_UNAV : Nat := 503
def HTTP_GATEWAY_TIMEOUT : Nat := 504

/-- Modelled from the spec: `HTTP_IS_XDOMAIN`, `HTTP_ALREADY_EXISTS`,
`FL_HTTP_SKIP_LINK` and `HTTP_OPERATION_TIMEOUT` are internal out-of-band
codes defined in headers that are not part of `src/`.  They are not wire
statuses (the `switch` in `update_status_code`, webreaper.c:280-293, places
`HTTP_ALREADY_EXISTS` in a `case` list alongside 200/301/302/303, so it must
differ from all of them); we model them as distinct values outside the HTTP
status range. -/
def HTTP_IS_XDOMAIN : Nat := 1001

/-- Modelled from the spec: see `HTTP_IS_XDOMAIN`. -/
def HTTP_ALREADY_EXISTS : Nat := 1002

/-- Modelled from the spec: see `HTTP_IS_XDOMAIN`. -/
def FL_HTTP_SKIP_LINK : Nat := 1003

/-- Modelled from the spec: see `HTTP_IS_XDOMAIN`. -/
def HTTP_OPERATION_TIMEOUT : Nat := 1004

/-- Embedding of the `switch ((unsigned int)status_code)` statement in `reap`
(src/webreaper.c:1222-1269).  Case groups appear in source order; every
status code not named by a `case` label falls into the `default:` arm. -/
def reap_status_action (s : Nat) : ReapAction :=
  if s = HTTP_OK ∨ s = HTTP_GONE ∨ s = HTTP_NOT_FOUND then .archive
  else if s = HTTP_BAD_REQUEST then .reconnectSkip
  else if s = HTTP_METHOD_NOT_ALLOWED ∨ s = HTTP_FORBIDDEN ∨ s = HTTP_INTERNAL_ERROR
       ∨ s = HTTP_BAD_GATEWAY ∨ s = HTTP_SERVICE_UNAV ∨ s = HTTP_GATEWAY_TIMEOUT then
    .reconnectSkip
  else if s = HTTP_IS_XDOMAIN ∨ s = HTTP_ALREADY_EXISTS ∨ s = FL_HTTP_SKIP_LINK then .skip
  else if s = HTTP_OPERATION_TIMEOUT then .timeoutReconnect
  else .fatal

/-! ## `__url_parseable` and the rewrite decision of `archive_page`
(src/webreaper.c:620-651) -/

/-- The `no_url_files` table (src/webreaper.c:37-49): substrings whose
presence marks a URL as not parseable. -/
def no_url_files : List (List Char) :=
  [cs ".jpg", cs ".jpeg", cs ".png", cs ".gif", cs ".js",
   cs ".css", cs ".pdf", cs ".svg", cs ".ico"]

/-- Embedding of `__url_parseable` (src/webreaper.c:620-632): the URL is
parseable iff `strstr` finds none of the `no_url_files` substrings in it. -/
def url_parseable (url : List Char) : Bool :=
  !(no_url_files.any fun t => strstrB t url)

/-- Embedding of the rewrite decision in `archive_page`
(src/webreaper.c:650-651): the in-place rewriter `replace_with_local_urls`
is invoked on the fetched page iff `__url_parseable(http->full_url)`. -/
def archive_page_rewrites (full_url : List Char) : Bool :=
  url_parseable full_url

/-- The parseable set named by the specification: extension `.html`, `.htm`
or `/` (this is the spec's wording, stated for comparison with the code's
`url_parseable`). -/
def spec_parseable_ext (url : List Char) : Bool :=
  (cs ".html").isSuffixOf url || (cs ".htm").isSuffixOf url || (cs "/").isSuffixOf url

/-! ## `http_parse_page` (src/http/http.c:621-657) -/

/-- Embedding of `http_parse_page`.  The C function mutates the caller's
URL: when the last byte is `/` it overwrites it with NUL, shortening the
string in place; it then extracts the page part.  We return the pair
`(url', page)` where `url'` is the caller's string after the call.
(The C code reads `*(endp - 1)` unconditionally, so the embedding is only
faithful for non-empty input.) -/
def http_parse_page (url : List Char) : List Char × List Char :=
  let url' := if url.getLast? = some '/' then url.dropLast else url
  let afterScheme :=
    if (cs "http:").isPrefixOf url' then url'.drop 7
    else if (cs "https:").isPrefixOf url' then url'.drop 8
    else url'
  let page :=
    match strstrSplit (cs "/") afterScheme with
    | none => cs "/"
    | some (_, fromSlash) => fromSlash
  (url', page)

/-! ## `__http_do_chunked_recv` (src/http/http.c:229-383)

The chunk loop works in place on the read buffer: it repeatedly parses a
hex chunk-size line (bounded by `HTTP_MAX_CHUNK_STR = 20` bytes), collapses
the line and the CR/LF bytes around it, and leaves the chunk payloads
behind.  We embed it as a function from the raw bytes that follow the
end-of-header sentinel to the de-chunked body, under the assumption that
the whole response is available (the socket-read branches of the C code
only transport further bytes into the buffer; they do not change the
sequence of collapses). -/

/-- The `SKIP_CRNL` macro (src/http/http.c:175): advance over every leading
CR or LF byte.  The callers then `buf_collapse` the skipped range, so in
the embedding the skipped bytes are simply dropped. -/
def skipCRNL : List Char → List Char
  | [] => []
  | c :: rest => if c = '\r' ∨ c = '\n' then skipCRNL rest else c :: rest

def isHexDigitC (c : Char) : Bool :=
  ('0' ≤ c && c ≤ '9') || ('a' ≤ c && c ≤ 'f') || ('A' ≤ c && c ≤ 'F')

def hexDigitVal (c : Char) : Nat :=
  if '0' ≤ c && c ≤ '9' then c.toNat - '0'.toNat
  else if 'a' ≤ c && c ≤ 'f' then c.toNat - 'a'.toNat + 10
  else c.toNat - 'A'.toNat + 10

/-- `strtoul(tmp, NULL, 16)` on the chunk-size token: accumulate the
leading hexadecimal digits, stopping at the first non-digit; no digits at
all yields 0. -/
def parseHexLoop : List Char → Nat → Nat
  | [], acc => acc
  | c :: rest, acc =>
    if isHexDigitC c then parseHexLoop rest (acc * 16 + hexDigitVal c) else acc

def parseHex (l : List Char) : Nat := parseHexLoop l 0

/-- One-pass embedding of the `while (1)` chunk loop
(src/http/http.c:268-380).  `acc` is the de-chunked body accumulated so far
(the bytes to the left of the cursor `p` that earlier iterations left in
the buffer); `rest` is the bytes from `p` to the buffer tail.

* the chunk-size line is the bytes before the first CR, which `memchr`
  searches within the first `HTTP_MAX_CHUNK_STR = 20` bytes (error if
  absent);
* a zero chunk size executes `--p` and collapses from `p - 1` to the tail:
  the byte *preceding* the size line — the final body byte accumulated so
  far (for a body with at least one payload byte) — is dropped along with
  the terminating line;
* otherwise the size line and the CR/LF run after it are collapsed
  (`SKIP_CRNL(e)`), `save_size` payload bytes are kept, and the CR/LF run
  after the payload is collapsed before looping. -/
def chunkLoop : Nat → List Char → List Char → Option (List Char)
  | 0, _, _ => none
  | fuel + 1, acc, rest =>
    match strstrSplit (cs "\r") (rest.take 20) with
    | none => none
    | some (line, _) =>
      let size := parseHex line
      if size = 0 then
        some acc.dropLast
      else
        let afterLine := skipCRNL (rest.drop line.length)
        if afterLine.length < size then none
        else
          let payload := afterLine.take size
          let afterPayload := skipCRNL (afterLine.drop size)
          chunkLoop fuel (acc ++ payload) afterPayload

/-- Embedding of `__http_do_chunked_recv` restricted to the bytes after the
end-of-header sentinel: the initial `SKIP_CRNL`-and-collapse
(src/http/http.c:259-266) followed by the chunk loop.  Returns the body
bytes that the function leaves in the read buffer after the header, or
`none` where the C code returns -1. -/
def http_do_chunked_recv (bodyRaw : List Char) : Option (List Char) :=
  chunkLoop (bodyRaw.length + 1) [] (skipCRNL bodyRaw)

/-! ## `http_build_request_header` (src/http/http.c:94-149) -/

/-- Modelled from the spec: the `HTTP_VERSION` macro lives in a header that
is not part of `src/`; every request line reads `HTTP/1.1` per the spec's
wire-protocol section. -/
def HTTP_VERSION : List Char := cs "1.1"

/-- Modelled from the spec: the `HTTP_EOH_SENTINEL` macro lives in a header
that is not part of `src/`; the end-of-header sentinel is `\r\n\r\n`. -/
def HTTP_EOH_SENTINEL : List Char := cs "\r\n\r\n"

/-- Embedding of `http_build_request_header`: build `tbuf` from
`conn->host`, `buf_snip` one byte when the last byte is `/`, then
`sprintf` the request and `buf_append` it to the connection's write buffer.
Faithful for non-empty `host` (the C code reads `*(tbuf.buf_tail - 1)`
unconditionally).  `ua` and `accept` stand for the `HTTP_USER_AGENT` and
`HTTP_ACCEPT` macros, which are not part of `src/`. -/
def http_build_request_header
    (wbuf host verb target ua accept : List Char) : List Char :=
  let tbuf := host
  let tbuf := if tbuf.getLast? = some '/' then tbuf.dropLast else tbuf
  wbuf ++
    (verb ++ cs " " ++ target ++ cs " HTTP/" ++ HTTP_VERSION ++ cs "\r\n" ++
     cs "User-Agent: " ++ ua ++ cs "\r\n" ++
     cs "Accept: " ++ accept ++ cs "\r\n" ++
     cs "Host: " ++ tbuf ++ cs "\r\n" ++
     cs "Connection: keep-alive" ++ HTTP_EOH_SENTINEL)

/-- The claim's description of the `Host` value: the connection's host with
any single trailing `/` stripped (stated from the spec's words, for
comparison with the code's `tbuf` steps). -/
def host_without_trailing_slash (host : List Char) : List Char :=
  if (cs "/").isSuffixOf host then host.dropLast else host

/-! ## `http_fetch_header` (src/http/http.c:691-760) -/

/-- Embedding of `http_fetch_header` with `whence = 0`.  Mirrors the C
control flow: `strstr` for the header name, existence check of the
end-of-header sentinel, `memchr` for `:`, the `strncmp("Set-Cookie", p,
q - p)` renaming special case, the single-space skip `p = q + 2; if
(*(p-1) != ' ') --p;`, and `memchr` for the terminating CR.  Returns
`some (name, value)` where the C code fills `hh` and returns non-NULL. -/
def http_fetch_header (buf name : List Char) : Option (List Char × List Char) :=
  match strstrSplit name buf with
  | none => none
  | some (_, fromName) =>
    if (strstrSplit HTTP_EOH_SENTINEL buf).isNone then none
    else
      match strstrSplit (cs ":") fromName with
      | none => none
      | some (region, fromColon) =>
        let hname := if region.isPrefixOf (cs "Set-Cookie") then cs "Cookie" else region
        let afterColon := fromColon.drop 1
        let vstart :=
          match afterColon with
          | ' ' :: tl => tl
          | other => other
        match strstrSplit (cs "\r") vstart with
        | none => none
        | some (value, _) => some (hname, value)

/-! ## `__url_acceptable` and the draining-cache index (src/webreaper.c:725-816) -/

/-- The URL index: binary tree of `http_link_t` nodes (`url`, `left`,
`right`); back-pointers (`parent`) play no role in search. -/
inductive LinkTree where
  | nil : LinkTree
  | node (url : List Char) (l r : LinkTree) : LinkTree

/-- `strcmp` on NUL-free C strings as an `Ordering` (byte-wise comparison;
a proper prefix is smaller). -/
def strcmpOrd : List Char → List Char → Ordering
  | [], [] => .eq
  | [], _ :: _ => .lt
  | _ :: _, [] => .gt
  | a :: as, b :: bs =>
    if a < b then .lt else if b < a then .gt else strcmpOrd as bs

/-- Embedding of the duplicate-search loop over the draining cache's tree
(src/webreaper.c:782-812): reject (return `true` = found) only when
`strcmp` is 0 *and* both the candidate and the node URL are non-empty; on
`cmp < 0` descend left, otherwise right. -/
def draining_search (url : List Char) : LinkTree → Bool
  | .nil => false
  | .node u l r =>
    match strcmpOrd url u with
    | .lt => draining_search url l
    | .eq => if !url.isEmpty && !u.isEmpty then true else draining_search url r
    | .gt => draining_search url r

/-- Plain membership in the tree (a node with this exact URL exists). -/
def LinkTree.memB (url : List Char) : LinkTree → Bool
  | .nil => false
  | .node u l r => url == u || LinkTree.memB url l || LinkTree.memB url r

/-- All node URLs satisfy `p`. -/
def LinkTree.allB (p : List Char → Bool) : LinkTree → Bool
  | .nil => true
  | .node u l r => p u && LinkTree.allB p l && LinkTree.allB p r

/-- The ordered-index invariant (spec I1): every left descendant is
`strcmp`-smaller than its ancestor and every right descendant larger. -/
def isBSTb : LinkTree → Bool
  | .nil => true
  | .node u l r =>
    LinkTree.allB (fun v => decide (strcmpOrd v u = Ordering.lt)) l
      && LinkTree.allB (fun v => decide (strcmpOrd u v = Ordering.lt)) r
      && isBSTb l && isBSTb r

/-- Modelled from the spec: `httplen = strlen("http://")`; the global is
defined outside `src/` ("Not an absolute URL shorter than the `http://`
prefix"). -/
def httplen : Nat := 7

/-- Modelled from the spec: `httpslen = strlen("https://")`; the global is
defined outside `src/`. -/
def httpslen : Nat := 8

/-- The `__disallowed_tokens` table (src/webreaper.c:701-709). -/
def disallowed_tokens : List (List Char) :=
  [cs "javascript:", cs "data:image", cs ".exe", cs ".dll", cs "cgi-"]

/-- Oracles for the collaborators `__url_acceptable` consults:
`local_archive_exists` and `is_xdomain` (both defined outside `src/`), and
the `OPT_ALLOW_XDOMAIN` option. -/
structure AcceptEnv where
  archiveExists : List Char → Bool
  isXdomain : List Char → Bool
  allowXdomain : Bool

/-- Embedding of `__url_acceptable` (src/webreaper.c:725-816): the chain of
early `return 0` tests in source order, then the draining-tree search;
`1` (accept) only when every test passes. -/
def url_acceptable (env : AcceptEnv) (dtree : LinkTree) (url : List Char) : Bool :=
  if 256 ≤ url.length then false
  else if ((cs "http:").isPrefixOf url || (cs "https:").isPrefixOf url)
          && (url.length < httplen || url.length < httpslen) then false
  else if env.archiveExists url then false
  else if url.contains '#' then false
  else if disallowed_tokens.any (fun t => strstrB t url) then false
  else if env.isXdomain url && !env.allowXdomain then false
  else if draining_search url dtree then false
  else true

/-! ## `do_request` (src/webreaper.c:1050-1096) -/

inductive Verb where
  | HEAD
  | GET
deriving DecidableEq

/-- The observable inputs of one `do_request` call: the status code the
HEAD response would carry, the status code a GET response would carry, the
`local_archive_exists` answer and whether the HEAD response said
`Connection: close`.  I/O failures are out of scope (they make
`do_request` return -1 before any of the steps at issue). -/
structure RequestEnv where
  headStatus : Int
  getStatus : Int
  archiveExists : Bool
  connClosed : Bool

/-- What a `do_request` call did: its return value, the requests it issued
in order, whether it consulted `local_archive_exists`, and whether it
reconnected. -/
structure RequestOutcome where
  result : Int
  requests : List Verb
  archiveChecked : Bool
  reconnected : Bool
deriving DecidableEq

/-- Embedding of `do_request` (src/webreaper.c:1050-1096): send HEAD,
receive, read the status; any status other than `HTTP_OK` is returned at
once; otherwise check `local_archive_exists`, possibly reconnect, then
issue the GET and return its status. -/
def do_request (env : RequestEnv) : RequestOutcome :=
  if env.headStatus ≠ (200 : Int) then
    { result := env.headStatus, requests := [.HEAD],
      archiveChecked := false, reconnected := false }
  else if env.archiveExists then
    { result := (HTTP_ALREADY_EXISTS : Nat), requests := [.HEAD],
      archiveChecked := true, reconnected := false }
  else
    { result := env.getStatus, requests := [.HEAD, .GET],
      archiveChecked := true, reconnected := env.connClosed }

/-! ## `reconnect` (src/connection.c:170-250) and `http_reconnect`
(src/http/http_conn.c:173-256)

DNS resolution plus TCP connect are abstracted into a single oracle
`resolve : List Char → Option Nat` (`some` = the `getaddrinfo`/`connect`
sequence succeeds for that hostname, yielding an address).  What matters
for the claims is which hostname each function hands to the oracle and
what the connection's fields are afterwards. -/

/-- Host-related connection state. -/
structure ConnState where
  host : List Char
  primary_host : List Char
  secure : Bool
deriving DecidableEq

/-- Embedding of `reconnect` (src/connection.c:170-250): close the socket,
`strcpy(conn->host, conn->primary_host)`, then resolve and connect using
`conn->primary_host`; the TLS option is read but never written. -/
def reconnect (resolve : List Char → Option Nat) (c : ConnState) : Option ConnState :=
  let c1 : ConnState := { c with host := c.primary_host }
  match resolve c.primary_host with
  | none => none
  | some _ => some c1

/-- Embedding of `http_reconnect` (src/http/http_conn.c:173-256): close the
socket, then resolve and connect using `http->host` — the *current* host;
no field of the object is rewritten. -/
def http_reconnect (resolve : List Char → Option Nat) (c : ConnState) : Option ConnState :=
  match resolve c.host with
  | none => none
  | some _ => some c

/-! ## TLS library global initialisation (src/connection.c, src/http/http_conn.c)

`__init_openssl` performs the library-global `SSL_library_init` (and
companions).  `open_connection` (connection.c:127-135) calls it on *every*
TLS open; `http_connect` (http_conn.c:120-133) guards it with
`pthread_once(&__ossl_init_once, ...)`.  We model the successful-operation
traces of each API and count the executions. -/

inductive ConnOp where
  /-- `open_connection` resp. `http_connect`. -/
  | openConn
  /-- `reconnect` resp. `http_reconnect` (neither calls `__init_openssl`;
  they build the SSL context directly). -/
  | reconn
  /-- `conn_switch_to_tls` resp. `HTTP_upgrade_to_TLS`: set the TLS flag,
  then open. -/
  | upgrade

structure TlsInitState where
  /-- `OPT_USE_TLS` resp. `http->usingSecure`. -/
  secure : Bool
  /-- Number of times `__init_openssl` has executed. -/
  initCount : Nat
  /-- The `pthread_once` control `__ossl_init_once` (http_conn.c only). -/
  onceDone : Bool
deriving DecidableEq

/-- One successful operation under src/connection.c semantics. -/
def conn_step (s : TlsInitState) : ConnOp → TlsInitState
  | .openConn => if s.secure then { s with initCount := s.initCount + 1 } else s
  | .reconn => s
  | .upgrade => { s with secure := true, initCount := s.initCount + 1 }

/-- One successful operation under src/http/http_conn.c semantics
(`pthread_once` runs the init only when `onceDone` is still false). -/
def http_step (s : TlsInitState) : ConnOp → TlsInitState
  | .openConn =>
    if s.secure then
      if s.onceDone then s
      else { s with initCount := s.initCount + 1, onceDone := true }
    else s
  | .reconn => s
  | .upgrade =>
    if s.onceDone then { s with secure := true }
    else { s with secure := true, initCount := s.initCount + 1, onceDone := true }

def conn_run (s : TlsInitState) : List ConnOp → TlsInitState
  | [] => s
  | op :: ops => conn_run (conn_step s op) ops

def http_run (s : TlsInitState) : List ConnOp → TlsInitState
  | [] => s
  | op :: ops => http_run (http_step s op) ops

/-! ## Claim theorems -/

/-- C1 (counterexample): a request whose status code is 301 is dispatched
by `reap`'s switch to the `default:` arm — the fatal "other" case that
aborts the crawl — refuting the claim that a 301/302/303 status is followed
and never treated as fatal. -/
theorem reap_301_hits_fatal_default :
    reap_status_action HTTP_MOVED_PERMANENTLY = ReapAction.fatal := by decide

/-- C1 (amended): the status codes 301, 302 and 303 all fall into the
`default:` arm of `reap`'s switch, i.e. the crawl engine treats every
redirect status as the fatal "other" case and aborts the crawl; no
`Location` following, TLS upgrade or host reconnect is performed. -/
theorem reap_redirects_all_fatal :
    reap_status_action HTTP_MOVED_PERMANENTLY = ReapAction.fatal
    ∧ reap_status_action HTTP_FOUND = ReapAction.fatal
    ∧ reap_status_action HTTP_SEE_OTHER = ReapAction.fatal := by decide

/-- C3 (counterexample): the page `http://a.test/page.txt` has extension
`.txt`, outside the spec's parseable set, yet `archive_page` does invoke
the in-place rewriter on it, because `__url_parseable` only scans for the
`no_url_files` substrings. -/
theorem archive_page_rewrites_txt_page :
    archive_page_rewrites (cs "http://a.test/page.txt") = true
    ∧ spec_parseable_ext (cs "http://a.test/page.txt") = false := by decide

/-- C3 (amended): `archive_page` invokes the in-place URL rewriter on a
fetched page if and only if the page's URL contains none of the substrings
`.jpg`, `.jpeg`, `.png`, `.gif`, `.js`, `.css`, `.pdf`, `.svg`, `.ico`;
pages whose URL contains one of them are archived without rewriting. -/
theorem archive_page_rewrite_iff_no_token (url : List Char) :
    archive_page_rewrites url = true ↔ ∀ t ∈ no_url_files, strstrB t url = false := by
  simp [archive_page_rewrites, url_parseable]

/-- C9: when the HEAD request's status code is not 200, `do_request`
returns that status immediately — the only request issued is the HEAD, the
`local_archive_exists` check never runs and no GET is issued — and `reap`'s
switch sends the statuses 404 and 410 on to archival, so what is archived
is the HEAD response still in the read buffer. -/
theorem do_request_head_short_circuit (env : RequestEnv)
    (h : env.headStatus ≠ 200) :
    do_request env =
      { result := env.headStatus, requests := [Verb.HEAD],
        archiveChecked := false, reconnected := false }
    ∧ reap_status_action HTTP_NOT_FOUND = ReapAction.archive
    ∧ reap_status_action HTTP_GONE = ReapAction.archive := by
  refine ⟨?_, by decide, by decide⟩
  simp [do_request, h]

theorem do_request_head_short_circuit_witness :
    ((404 : Int) ≠ 200)
    ∧ do_request ⟨404, 200, false, false⟩ =
        { result := 404, requests := [Verb.HEAD],
          archiveChecked := false, reconnected := false } := by
  refine ⟨by decide, ?_⟩
  exact (do_request_head_short_circuit ⟨404, 200, false, false⟩ (by decide)).1

/-- C10: for a non-empty URL whose last character is `/`,
`http_parse_page` shortens the caller's string in place by one byte
(overwriting the `/` with NUL); any other non-empty input is left
unchanged. -/
theorem http_parse_page_inplace_truncation (url : List Char) (h : url ≠ []) :
    (url.getLast? = some '/' →
       (http_parse_page url).1 = url.dropLast
       ∧ (http_parse_page url).1.length + 1 = url.length)
    ∧ (url.getLast? ≠ some '/' → (http_parse_page url).1 = url) := by
  constructor
  · intro hl
    have h1 : (http_parse_page url).1 = url.dropLast := by
      simp [http_parse_page, hl]
    refine ⟨h1, ?_⟩
    rw [h1, List.length_dropLast]
    have : 0 < url.length := List.length_pos.mpr h
    omega
  · intro hl
    simp [http_parse_page, hl]

theorem http_parse_page_inplace_truncation_witness :
    (cs "http://a.test/x/" ≠ [])
    ∧ (http_parse_page (cs "http://a.test/x/")).1 = cs "http://a.test/x" := by
  refine ⟨by decide, ?_⟩
  have h := (http_parse_page_inplace_truncation (cs "http://a.test/x/")
    (by decide)).1 (by decide)
  exact h.1.trans (by decide)

theorem slash_suffix_iff (l : List Char) :
    ((cs "/").isSuffixOf l = true) ↔ l.getLast? = some '/' := by
  rw [List.isSuffixOf, ← List.head?_reverse]
  generalize l.reverse = m
  cases m with
  | nil => decide
  | cons c t =>
    show (['/'].isPrefixOf (c :: t) = true) ↔ (c :: t).head? = some '/'
    simp only [List.isPrefixOf, Bool.and_true, beq_iff_eq, List.head?, Option.some.injEq]
    exact eq_comm

/-- C6: for every verb, target and connection host,
`http_build_request_header` appends to the write buffer exactly the
request
`<VERB> <target> HTTP/1.1\r\nUser-Agent: <ua>\r\nAccept: <accept>\r\nHost: <host>\r\nConnection: keep-alive\r\n\r\n`,
where `<host>` is the connection's host with any single trailing `/`
stripped. -/
theorem http_build_request_header_exact
    (wbuf host verb target ua accept : List Char) (_h : host ≠ []) :
    http_build_request_header wbuf host verb target ua accept =
      wbuf ++ (verb ++ cs " " ++ target ++ cs " HTTP/1.1\r\n"
        ++ cs "User-Agent: " ++ ua ++ cs "\r\n"
        ++ cs "Accept: " ++ accept ++ cs "\r\n"
        ++ cs "Host: " ++ host_without_trailing_slash host ++ cs "\r\n"
        ++ cs "Connection: keep-alive" ++ cs "\r\n\r\n") := by
  have hstrip : (if host.getLast? = some '/' then host.dropLast else host)
      = host_without_trailing_slash host := by
    rw [host_without_trailing_slash]
    by_cases hc : host.getLast? = some '/'
    · rw [if_pos hc, if_pos ((slash_suffix_iff host).mpr hc)]
    · rw [if_neg hc, if_neg (fun hs => hc ((slash_suffix_iff host).mp hs))]
  simp only [http_build_request_header, hstrip, HTTP_VERSION, HTTP_EOH_SENTINEL,
    List.append_assoc]
  rfl

theorem http_build_request_header_exact_witness :
    (cs "a.test/" ≠ [])
    ∧ http_build_request_header [] (cs "a.test/") (cs "GET") (cs "/x")
        (cs "UA") (cs "ACC")
      = cs "GET /x HTTP/1.1\r\nUser-Agent: UA\r\nAccept: ACC\r\nHost: a.test\r\nConnection: keep-alive\r\n\r\n" := by
  refine ⟨by decide, ?_⟩
  have h := http_build_request_header_exact [] (cs "a.test/") (cs "GET")
    (cs "/x") (cs "UA") (cs "ACC") (by decide)
  exact h.trans (by decide)

/-- First chunk payload of the spec's chunked-body scenario: 0x10 = 16
bytes. -/
def chunkPayload1 : List Char := cs "ABCDEFGHIJKLMNOP"

/-- Second chunk payload of the spec's chunked-body scenario: 0x20 = 32
bytes. -/
def chunkPayload2 : List Char := cs "abcdefghijklmnopqrstuvwxyz012345"

/-- The bytes following the end-of-header sentinel for the spec's chunked
scenario: chunks of sizes 0x10 and 0x20, then the terminating 0 chunk. -/
def chunkedWire : List Char :=
  cs "10\r\n" ++ chunkPayload1 ++ cs "\r\n20\r\n" ++ chunkPayload2 ++ cs "\r\n0\r\n\r\n"

/-- C2: on the spec's own chunked scenario (chunks 0x10, 0x20, 0x0) the
body `__http_do_chunked_recv` leaves in the buffer is the 47-byte
`dropLast` of the two concatenated payloads, not the 48-byte
concatenation the specification requires: the `--p` before the final
`buf_collapse` (src/http/http.c:285-286) collapses from one byte *before*
the zero-size line, deleting the last payload byte along with the
terminator. -/
theorem chunked_recv_drops_final_body_byte :
    http_do_chunked_recv chunkedWire
      = some ((chunkPayload1 ++ chunkPayload2).dropLast)
    ∧ (chunkPayload1 ++ chunkPayload2).length = 48
    ∧ ((chunkPayload1 ++ chunkPayload2).dropLast).length = 47
    ∧ http_do_chunked_recv chunkedWire ≠ some (chunkPayload1 ++ chunkPayload2) := by
  refine ⟨by decide, by decide, by decide, by decide⟩

theorem strstrSplit_single (d : Char) (v w : List Char) (hv : v.contains d = false) :
    strstrSplit [d] (v ++ d :: w) = some (v, d :: w) := by
  induction v with
  | nil => simp [strstrSplit, List.isPrefixOf]
  | cons c t ih =>
    rw [List.contains_cons, Bool.or_eq_false_iff] at hv
    obtain ⟨hdc, ht⟩ := hv
    show strstrSplit [d] (c :: (t ++ d :: w)) = _
    rw [strstrSplit]
    have hpre : [d].isPrefixOf (c :: (t ++ d :: w)) = false := by
      show (d == c && List.isPrefixOf [] (t ++ d :: w)) = false
      simp [hdc]
    rw [hpre]
    simp [ih ht]

/-- C7 (counterexample): on a buffer whose `Set-Cookie` header has *two*
spaces after the colon, the value `http_fetch_header` returns starts at
the second space — the code skips at most one space (`p = q + 2; if
(*(p-1) != ' ') --p;`), so the value is not the substring from the first
non-space character after `:`. -/
theorem http_fetch_header_two_spaces_cex :
    http_fetch_header (cs "Set-Cookie:  k=v\r\n\r\n") (cs "Set-Cookie")
      = some (cs "Cookie", cs " k=v")
    ∧ http_fetch_header (cs "Set-Cookie:  k=v\r\n\r\n") (cs "Set-Cookie")
      ≠ some (cs "Cookie", cs "k=v") := by
  refine ⟨by decide, by decide⟩

/-- C7 (amended): when `http_fetch_header` is pointed at a buffer that
starts with a `Set-Cookie` header (the standard `name: value` layout with
one space after the colon), the returned entry carries the canonical name
`Cookie` — not `Set-Cookie` — and its value is exactly the bytes between
the single skipped space and the next CR, ready to be echoed verbatim;
with more than one space after the colon the extra spaces stay in the
value. -/
theorem http_fetch_header_set_cookie_renamed (v rest : List Char)
    (hv : v.contains '\r' = false) :
    http_fetch_header (cs "Set-Cookie: " ++ (v ++ (cs "\r\n" ++ (rest ++ cs "\r\n\r\n"))))
        (cs "Set-Cookie")
      = some (cs "Cookie", v) := by
  have h1 : strstrSplit (cs "Set-Cookie")
      (cs "Set-Cookie: " ++ (v ++ (cs "\r\n" ++ (rest ++ cs "\r\n\r\n"))))
      = some ([], cs "Set-Cookie: " ++ (v ++ (cs "\r\n" ++ (rest ++ cs "\r\n\r\n")))) := rfl
  have hb : cs "Set-Cookie: " ++ (v ++ (cs "\r\n" ++ (rest ++ cs "\r\n\r\n")))
      = (cs "Set-Cookie: " ++ v ++ cs "\r\n" ++ rest) ++ cs "\r\n\r\n" := by
    simp [List.append_assoc]
  have h2 : (strstrSplit (cs "\r\n\r\n")
      (cs "Set-Cookie: " ++ (v ++ (cs "\r\n" ++ (rest ++ cs "\r\n\r\n"))))).isSome = true := by
    rw [hb]
    exact strstrSplit_append (cs "\r\n\r\n") (cs "\r\n\r\n") (by decide)
      (cs "Set-Cookie: " ++ v ++ cs "\r\n" ++ rest)
  have h2' : (strstrSplit (cs "\r\n\r\n")
      (cs "Set-Cookie: " ++ (v ++ (cs "\r\n" ++ (rest ++ cs "\r\n\r\n"))))).isNone = false := by
    cases hsp : strstrSplit (cs "\r\n\r\n")
        (cs "Set-Cookie: " ++ (v ++ (cs "\r\n" ++ (rest ++ cs "\r\n\r\n")))) with
    | none => rw [hsp] at h2; simp at h2
    | some p => rfl
  have h3 : strstrSplit (cs ":")
      (cs "Set-Cookie: " ++ (v ++ (cs "\r\n" ++ (rest ++ cs "\r\n\r\n"))))
      = some (cs "Set-Cookie",
          ':' :: ' ' :: (v ++ (cs "\r\n" ++ (rest ++ cs "\r\n\r\n")))) := rfl
  have h4 : strstrSplit (cs "\r") (v ++ (cs "\r\n" ++ (rest ++ cs "\r\n\r\n")))
      = some (v, '\r' :: ('\n' :: (rest ++ cs "\r\n\r\n"))) := by
    have hX : v ++ (cs "\r\n" ++ (rest ++ cs "\r\n\r\n"))
        = v ++ '\r' :: ('\n' :: (rest ++ cs "\r\n\r\n")) := rfl
    rw [hX]
    exact strstrSplit_single '\r' v ('\n' :: (rest ++ cs "\r\n\r\n")) hv
  rw [http_fetch_header, h1]
  simp only [HTTP_EOH_SENTINEL, h2', Bool.false_eq_true, if_false, h3,
    List.drop_succ_cons, List.drop_zero, h4]
  have h5 : (cs "Set-Cookie").isPrefixOf (cs "Set-Cookie") = true := by decide
  simp [h5]

theorem http_fetch_header_set_cookie_renamed_witness :
    ((cs "k=v").contains '\r' = false)
    ∧ http_fetch_header (cs "Set-Cookie: k=v\r\n\r\n") (cs "Set-Cookie")
      = some (cs "Cookie", cs "k=v") := by
  refine ⟨by decide, ?_⟩
  exact http_fetch_header_set_cookie_renamed (cs "k=v") [] (by decide)

theorem strcmpOrd_eq_iff (a : List Char) : ∀ b, strcmpOrd a b = Ordering.eq ↔ a = b := by
  induction a with
  | nil => intro b; cases b <;> simp [strcmpOrd]
  | cons x xs ih =>
    intro b
    cases b with
    | nil => simp [strcmpOrd]
    | cons y ys =>
      rw [strcmpOrd]
      by_cases h1 : x < y
      · simp [h1, ne_of_lt h1]
      · by_cases h2 : y < x
        · simp [h1, h2, (ne_of_lt h2).symm]
        · have hxy : x = y := le_antisymm (not_lt.mp h2) (not_lt.mp h1)
          simp [h1, h2, hxy, ih ys]

theorem strcmpOrd_swap (a : List Char) : ∀ b, strcmpOrd b a = (strcmpOrd a b).swap := by
  induction a with
  | nil => intro b; cases b <;> simp [strcmpOrd, Ordering.swap]
  | cons x xs ih =>
    intro b
    cases b with
    | nil => simp [strcmpOrd, Ordering.swap]
    | cons y ys =>
      rw [strcmpOrd, strcmpOrd]
      by_cases h1 : x < y
      · have h2 : ¬ y < x := lt_asymm h1
        simp [h1, h2, Ordering.swap]
      · by_cases h2 : y < x
        · simp [h1, h2, Ordering.swap]
        · simp [h1, h2, ih ys]

theorem allB_memB (p : List Char → Bool) (t : LinkTree) (url : List Char)
    (hall : t.allB p = true) (hm : t.memB url = true) : p url = true := by
  induction t with
  | nil => simp [LinkTree.memB] at hm
  | node u l r ihl ihr =>
    rw [LinkTree.allB, Bool.and_eq_true, Bool.and_eq_true] at hall
    obtain ⟨⟨hu, hl⟩, hr⟩ := hall
    rw [LinkTree.memB, Bool.or_eq_true, Bool.or_eq_true] at hm
    rcases hm with (h | h) | h
    · rw [beq_iff_eq] at h
      rw [h]; exact hu
    · exact ihl hl h
    · exact ihr hr h

/-- In a tree satisfying the ordered-index invariant with non-empty node
URLs, the search loop of `__url_acceptable` finds every member. -/
theorem draining_search_complete (url : List Char) (t : LinkTree)
    (hbst : isBSTb t = true)
    (hne : t.allB (fun v => !v.isEmpty) = true)
    (hm : t.memB url = true) :
    draining_search url t = true := by
  induction t with
  | nil => simp [LinkTree.memB] at hm
  | node u l r ihl ihr =>
    rw [isBSTb, Bool.and_eq_true, Bool.and_eq_true, Bool.and_eq_true] at hbst
    obtain ⟨⟨⟨hall_l, hall_r⟩, hbl⟩, hbr⟩ := hbst
    rw [LinkTree.allB, Bool.and_eq_true, Bool.and_eq_true] at hne
    obtain ⟨⟨hu_ne, hne_l⟩, hne_r⟩ := hne
    rw [LinkTree.memB, Bool.or_eq_true, Bool.or_eq_true] at hm
    rcases hm with (h | h) | h
    · rw [beq_iff_eq] at h
      have heq : strcmpOrd url u = Ordering.eq := (strcmpOrd_eq_iff url u).mpr h
      simp only [draining_search, heq]
      simp [h, hu_ne]
    · have h2 := allB_memB _ l url hall_l h
      have hlt : strcmpOrd url u = Ordering.lt := of_decide_eq_true h2
      simp only [draining_search, hlt]
      exact ihl hbl hne_l h
    · have h2 := allB_memB _ r url hall_r h
      have h3 : strcmpOrd u url = Ordering.lt := of_decide_eq_true h2
      have hgt : strcmpOrd url u = Ordering.gt := by
        rw [strcmpOrd_swap u url, h3]; rfl
      simp only [draining_search, hgt]
      exact ihr hbr hne_r h

/-- C5: every URL accepted by `__url_acceptable` has length < 256,
contains no `#`, contains none of the disallowed substrings, does not
already exist in the local archive, is not cross-domain unless
`OPT_ALLOW_XDOMAIN` is set, and is not present in the draining cache's
ordered index (given the index invariant and non-empty node URLs). -/
theorem url_acceptable_props (env : AcceptEnv) (dtree : LinkTree) (url : List Char)
    (hbst : isBSTb dtree = true)
    (hne : dtree.allB (fun v => !v.isEmpty) = true)
    (hacc : url_acceptable env dtree url = true) :
    url.length < 256
    ∧ url.contains '#' = false
    ∧ (∀ t ∈ disallowed_tokens, strstrB t url = false)
    ∧ env.archiveExists url = false
    ∧ (env.isXdomain url = true → env.allowXdomain = true)
    ∧ dtree.memB url = false := by
  rw [url_acceptable] at hacc
  split at hacc
  · simp at hacc
  rename_i h1
  split at hacc
  · simp at hacc
  rename_i h2
  split at hacc
  · simp at hacc
  rename_i h3
  split at hacc
  · simp at hacc
  rename_i h4
  split at hacc
  · simp at hacc
  rename_i h5
  split at hacc
  · simp at hacc
  rename_i h6
  split at hacc
  · simp at hacc
  rename_i h7
  refine ⟨by omega, ?_, ?_, ?_, ?_, ?_⟩
  · simpa using h4
  · intro t ht
    have h5' := h5
    simp at h5'
    exact h5' t ht
  · simpa using h3
  · intro hx
    cases hall : env.allowXdomain
    · exfalso; apply h6; simp [hx, hall]
    · rfl
  · cases hmem : dtree.memB url
    · rfl
    · have hs := draining_search_complete url dtree hbst hne hmem
      exact absurd hs (by simpa using h7)

/-- Concrete oracle environment for the acceptance witness: nothing is
archived yet, nothing is cross-domain, `OPT_ALLOW_XDOMAIN` unset. -/
def acceptEnvW : AcceptEnv :=
  { archiveExists := fun _ => false, isXdomain := fun _ => false, allowXdomain := false }

/-- Concrete draining index for the acceptance witness. -/
def urlTreeW : LinkTree :=
  .node (cs "http://a.test/b") (.node (cs "http://a.test/a") .nil .nil)
    (.node (cs "http://a.test/c") .nil .nil)

theorem url_acceptable_props_witness :
    isBSTb urlTreeW = true
    ∧ urlTreeW.allB (fun v => !v.isEmpty) = true
    ∧ url_acceptable acceptEnvW urlTreeW (cs "http://a.test/d") = true
    ∧ (cs "http://a.test/d").length < 256
    ∧ urlTreeW.memB (cs "http://a.test/d") = false := by
  refine ⟨by decide, by decide, by decide, ?_, ?_⟩
  · exact (url_acceptable_props acceptEnvW urlTreeW (cs "http://a.test/d")
      (by decide) (by decide) (by decide)).1
  · exact (url_acceptable_props acceptEnvW urlTreeW (cs "http://a.test/d")
      (by decide) (by decide) (by decide)).2.2.2.2.2

/-- Resolver for the C4 counterexample: only the current host `b.test`
resolves; the primary host `a.test` does not resolve at all. -/
def resolveW : List Char → Option Nat :=
  fun h => if h = cs "b.test" then some 1 else none

/-- Connection after a redirect: current host differs from the primary. -/
def connW : ConnState :=
  { host := cs "b.test", primary_host := cs "a.test", secure := false }

/-- C4 (counterexample): `http_reconnect` succeeds against a resolver that
cannot resolve the primary host at all — so it resolved the *current*
host — and afterwards the connection's host field still differs from
`primary_host`, refuting the claim for the `http_reconnect` variant. -/
theorem http_reconnect_current_host_cex :
    http_reconnect resolveW connW = some connW
    ∧ connW.host ≠ connW.primary_host
    ∧ resolveW connW.primary_host = none := by
  refine ⟨by decide, by decide, by decide⟩

/-- C4 (amended): `reconnect` (src/connection.c) reopens from the primary
host — its outcome depends only on what the resolver says about
`primary_host` — and on success the host field equals `primary_host` with
the secure flag preserved; `http_reconnect` (src/http/http_conn.c),
however, reopens from the *current* host field and leaves every field,
including `host`, unchanged. -/
theorem reconnect_vs_http_reconnect
    (resolve resolve2 : List Char → Option Nat) (c c' : ConnState) :
    (resolve c.primary_host = resolve2 c.primary_host →
        reconnect resolve c = reconnect resolve2 c)
    ∧ (reconnect resolve c = some c' →
        c'.host = c.primary_host ∧ c'.primary_host = c.primary_host
        ∧ c'.secure = c.secure)
    ∧ (http_reconnect resolve c = some c' → c' = c)
    ∧ (resolve c.host = resolve2 c.host →
        http_reconnect resolve c = http_reconnect resolve2 c) := by
  refine ⟨?_, ?_, ?_, ?_⟩
  · intro h; simp only [reconnect, h]
  · intro h
    simp only [reconnect] at h
    cases hr : resolve c.primary_host with
    | none => rw [hr] at h; simp at h
    | some a =>
      rw [hr] at h
      simp only [Option.some.injEq] at h
      subst h
      exact ⟨rfl, rfl, rfl⟩
  · intro h
    rw [http_reconnect] at h
    cases hr : resolve c.host with
    | none => rw [hr] at h; simp at h
    | some a => rw [hr] at h; simpa using h.symm
  · intro h; rw [http_reconnect, http_reconnect, h]

theorem reconnect_vs_http_reconnect_witness :
    reconnect (fun _ => some 0) connW
      = some { host := cs "a.test", primary_host := cs "a.test", secure := false }
    ∧ (cs "a.test") = connW.primary_host := by
  constructor
  · decide
  · exact ((reconnect_vs_http_reconnect (fun _ => some 0) (fun _ => some 0) connW
      { host := cs "a.test", primary_host := cs "a.test", secure := false }).2.1
        (by decide)).1

/-- C8 (counterexample): under the src/connection.c implementation the
call sequence "open with TLS, then upgrade-to-TLS" executes
`__init_openssl` (and so `SSL_library_init`) twice in one process, because
`open_connection` runs the init on every TLS open. -/
theorem tls_init_twice_cex :
    (conn_run { secure := true, initCount := 0, onceDone := false }
        [ConnOp.openConn, ConnOp.upgrade]).initCount = 2 := by decide

theorem http_run_once_invariant (ops : List ConnOp) :
    ∀ s : TlsInitState, s.initCount = (if s.onceDone then 1 else 0) →
      (http_run s ops).initCount = if (http_run s ops).onceDone then 1 else 0 := by
  induction ops with
  | nil => intro s h; simpa [http_run] using h
  | cons op ops ih =>
    intro s h
    rw [http_run]
    apply ih
    cases op <;> simp [http_step] <;> split_ifs <;> simp_all

/-- C8 (amended): only the src/http/http_conn.c path guards the TLS
library global init with `pthread_once`: there, across every sequence of
opens, reconnects and upgrades the init count is exactly 1 once the
run-once flag has fired and 0 before (never more than once, and exactly
once when a TLS connection has been made).  The src/connection.c path runs
the init on every TLS open, so the sequence "open with TLS, then upgrade"
already executes it twice. -/
theorem tls_library_init_amended :
    (∀ (sec : Bool) (ops : List ConnOp),
        (http_run { secure := sec, initCount := 0, onceDone := false } ops).initCount
          = if (http_run { secure := sec, initCount := 0, onceDone := false } ops).onceDone
            then 1 else 0)
    ∧ (conn_run { secure := true, initCount := 0, onceDone := false }
          [ConnOp.openConn, ConnOp.upgrade]).initCount ≠ 1 := by
  constructor
  · intro sec ops
    exact http_run_once_invariant ops _ (by simp)
  · decide

end WebReaper
